import Mathlib

/-!
Verification development for the lambda-go-template repository.

Shallow embedding of the request-pipeline core: the typed error taxonomy
(pkg/lambda/errors.go), the response builder (pkg/http/response.go), the
configuration loader (pkg/config), the middleware wrapper (pkg/lambda,
Wrap/WrapV2 and the middlewares), and the tracer timing helper
(pkg/observability).

Go strings are Lean `String`s; Go `time.Duration` is `Int` (nanoseconds:
only comparisons with zero and with other durations are ever observed);
Go `error` values of the taxonomy are `GoErr`, with `Option GoErr` for
`error`-typed variables that may be nil; Go `interface{}` data values are
`Option JVal` (`none` is the nil interface).  Logging and tracing calls
have no influence on any value the theorems observe, so they are not
represented.  Wall-clock reads (`time.Now()`) are passed in explicitly.
-/

/-- String containment: the pattern occurs contiguously inside the string.
This models `strings.Contains` / `assert.Contains` on messages. -/
def strContains (s pat : String) : Prop := pat.data <:+: s.data

instance (s pat : String) : Decidable (strContains s pat) :=
  List.decidableInfix pat.data s.data

/-- JSON values, as produced by `encoding/json` unmarshalling into
`interface{}`.  Numbers keep their source text: no theorem in this file
observes numeric semantics, which spares a float model. -/
inductive JVal : Type
  | jnull : JVal
  | jbool : Bool → JVal
  | jnum : String → JVal
  | jstr : String → JVal
  | jarr : List JVal → JVal
  | jobj : List (String × JVal) → JVal

/-- A Go `interface{}` value: `none` is the nil interface. -/
abbrev GoIface : Type := Option JVal

/-- The typed error taxonomy of pkg/lambda/errors.go, one constructor per
struct, with the same fields.  `untyped` stands for any other value
satisfying Go's `error` interface (carrying its `Error()` string). -/
inductive GoErr : Type
  | validation (message field : String) (value : GoIface) (cause : Option GoErr)
  | notFound (message resource id : String)
  | conflict (message resource : String) (cause : Option GoErr)
  | unauthorized (message reason : String)
  | forbidden (message resource operation : String)
  | timeout (message : String) (timeoutNs : Int)
  | internal (message operation : String) (cause : Option GoErr)
  | businessLogic (message code : String) (details : List (String × GoIface))
  | externalService (message service : String) (statusCode : Int)
      (retryable : Bool) (cause : Option GoErr)
  | untyped (message : String)

/-- Go renders a `time.Duration` with unit-scaled suffixes ("100ms", "29s").
That pretty-printer is simplified here to raw nanoseconds: every duration
string in this file is only ever carried opaquely inside messages that no
theorem inspects below the whole-message level. -/
def durString (ns : Int) : String := toString ns ++ "ns"

namespace GoErr

/-- The `Error()` method of each variant, translated clause by clause from
pkg/lambda/errors.go (apostrophes written with \x27 escapes). -/
def errString : GoErr → String
  | validation message field _ _ =>
      if field ≠ "" then
        "validation error for field \x27" ++ field ++ "\x27: " ++ message
      else "validation error: " ++ message
  | notFound message resource id =>
      if resource ≠ "" ∧ id ≠ "" then
        resource ++ " not found: " ++ message ++ " with ID \x27" ++ id ++ "\x27"
      else if resource ≠ "" then resource ++ " not found: " ++ message
      else "not found: " ++ message
  | conflict message resource _ =>
      if resource ≠ "" then "conflict with " ++ resource ++ ": " ++ message
      else "conflict: " ++ message
  | unauthorized message reason =>
      if reason ≠ "" then "unauthorized: " ++ message ++ " (" ++ reason ++ ")"
      else "unauthorized: " ++ message
  | forbidden message resource operation =>
      if resource ≠ "" ∧ operation ≠ "" then
        "forbidden: cannot " ++ operation ++ " " ++ resource ++ " - " ++ message
      else if resource ≠ "" then
        "forbidden: access to " ++ resource ++ " denied - " ++ message
      else "forbidden: " ++ message
  | timeout message timeoutNs =>
      if timeoutNs > 0 then
        "timeout: " ++ message ++ " (after " ++ durString timeoutNs ++ ")"
      else "timeout: " ++ message
  | internal message operation _ =>
      if operation ≠ "" then
        "internal error during " ++ operation ++ ": " ++ message
      else "internal error: " ++ message
  | businessLogic message code _ =>
      if code ≠ "" then
        "business logic error [" ++ code ++ "]: " ++ message
      else "business logic error: " ++ message
  | externalService message service statusCode _ _ =>
      if service ≠ "" ∧ statusCode > 0 then
        "external service error [" ++ service ++ ":" ++ toString statusCode
          ++ "]: " ++ message
      else if service ≠ "" then
        "external service error [" ++ service ++ "]: " ++ message
      else "external service error: " ++ message
  | untyped message => message

end GoErr

/-- The `Is<Variant>` classification predicates of pkg/lambda/errors.go:
each is a type assertion against one pointer type, false on nil. -/
def IsValidationError : Option GoErr → Bool
  | some (.validation _ _ _ _) => true
  | _ => false

def IsNotFoundError : Option GoErr → Bool
  | some (.notFound _ _ _) => true
  | _ => false

def IsConflictError : Option GoErr → Bool
  | some (.conflict _ _ _) => true
  | _ => false

def IsUnauthorizedError : Option GoErr → Bool
  | some (.unauthorized _ _) => true
  | _ => false

def IsForbiddenError : Option GoErr → Bool
  | some (.forbidden _ _ _) => true
  | _ => false

def IsTimeoutError : Option GoErr → Bool
  | some (.timeout _ _) => true
  | _ => false

def IsInternalError : Option GoErr → Bool
  | some (.internal _ _ _) => true
  | _ => false

def IsBusinessLogicError : Option GoErr → Bool
  | some (.businessLogic _ _ _) => true
  | _ => false

def IsExternalServiceError : Option GoErr → Bool
  | some (.externalService _ _ _ _ _) => true
  | _ => false

/-- IsRetryableError from pkg/lambda/errors.go: an ExternalServiceError is
retryable exactly when its flag is set; any TimeoutError is retryable. -/
def IsRetryableError : Option GoErr → Bool
  | some (.externalService _ _ _ retryable _) => retryable
  | some (.timeout _ _) => true
  | _ => false

/-- Modelled from the spec: the function `GetStatusCode` is referenced by
the repository only from its test `TestLambdaError_GetStatusCode`
(src/unnamed/part_003); its definition is not among the source files, so
it is reconstructed from the status table of spec §4.5: ValidationError
400, NotFoundError 404, ConflictError 409, UnauthorizedError 401,
ForbiddenError 403, TimeoutError 408, InternalError 500,
BusinessLogicError 500 (default mapping), ExternalServiceError its own
statusCode field, nil 200, any other error 500. -/
def GetStatusCode : Option GoErr → Int
  | none => 200
  | some (.validation _ _ _ _) => 400
  | some (.notFound _ _ _) => 404
  | some (.conflict _ _ _) => 409
  | some (.unauthorized _ _) => 401
  | some (.forbidden _ _ _) => 403
  | some (.timeout _ _) => 408
  | some (.internal _ _ _) => 500
  | some (.businessLogic _ _ _) => 500
  | some (.externalService _ _ statusCode _ _) => statusCode
  | some (.untyped _) => 500

/-! ## Configuration loader (pkg/config, src/unnamed/part_000) -/

/-- The Config struct.  Durations are nanosecond counts; only their sign
and relative order are ever inspected by `validate`. -/
structure Config : Type where
  serviceName : String
  serviceVersion : String
  environment : String
  logLevel : String
  logFormat : String
  requestTimeout : Int
  responseTimeout : Int
  enableTracing : Bool
  enableMetrics : Bool
  cacheMaxAge : Int
  deriving DecidableEq

/-- The method `(c *Config) validate()`, check for check in source order;
`none` means the Go method returned nil. -/
def Config.validate (c : Config) : Option String :=
  if c.serviceName = "" then some "service name cannot be empty"
  else if c.serviceVersion = "" then some "service version cannot be empty"
  else if c.requestTimeout ≤ 0 then some "request timeout must be positive"
  else if c.responseTimeout ≤ 0 then some "response timeout must be positive"
  else if c.responseTimeout ≥ c.requestTimeout then
    some "response timeout must be less than request timeout"
  else if c.cacheMaxAge < 0 then some "cache max age cannot be negative"
  else if ¬ (c.logLevel = "debug" ∨ c.logLevel = "info" ∨ c.logLevel = "warn"
      ∨ c.logLevel = "error" ∨ c.logLevel = "fatal" ∨ c.logLevel = "panic") then
    some ("invalid log level: " ++ c.logLevel)
  else if ¬ (c.logFormat = "json" ∨ c.logFormat = "console") then
    some ("invalid log format: " ++ c.logFormat)
  else none

/-- `Load` after the environment has been parsed into a `Config` value:
`envconfig.Process` fills the struct (environment parsing itself is not
modelled — every claim quantifies over the resulting configuration), then
a `validate` failure is wrapped and returned, with no Config. -/
def Config.load (c : Config) : Except String Config :=
  match c.validate with
  | some msg => .error ("configuration validation failed: " ++ msg)
  | none => .ok c

/-! ## Response builder (pkg/http/response.go) -/

/-- A UTC instant, broken into the components that RFC-3339 rendering
reads.  The bounds needed for well-formed rendering are hypotheses of the
theorems that use them. -/
structure DateTime : Type where
  year : Nat
  month : Nat
  day : Nat
  hour : Nat
  minute : Nat
  second : Nat
  deriving DecidableEq

/-- Fixed-width zero-padded decimal digits, least-significant last. -/
def padDigits (width n : Nat) : List Char :=
  (List.range width).reverse.map fun i => Nat.digitChar (n / 10 ^ i % 10)

/-- The timestamp produced by
`time.Now().UTC().Format(time.RFC3339)`: for a UTC time this renders as
`YYYY-MM-DDTHH:MM:SSZ`. -/
def formatRFC3339 (t : DateTime) : String :=
  ⟨padDigits 4 t.year ++ '-' :: padDigits 2 t.month ++ '-' :: padDigits 2 t.day
    ++ 'T' :: padDigits 2 t.hour ++ ':' :: padDigits 2 t.minute
    ++ ':' :: padDigits 2 t.second ++ ['Z']⟩

/-- A recognizer for RFC-3339 UTC timestamps of the `YYYY-MM-DDTHH:MM:SSZ`
shape, used to state the spec invariant that timestamps are RFC-3339 UTC
strings. -/
def isRFC3339UTC (s : String) : Bool :=
  match s.data with
  | [y1, y2, y3, y4, '-', mo1, mo2, '-', d1, d2, 'T',
     h1, h2, ':', mi1, mi2, ':', s1, s2, 'Z'] =>
      [y1, y2, y3, y4, mo1, mo2, d1, d2, h1, h2, mi1, mi2, s1, s2].all
        fun c => c.isDigit
  | _ => false


/-- Header maps (Go `map[string]string`): an association list with
insert-replace, queried by exact key. -/
def hdrSet (hs : List (String × String)) (k v : String) : List (String × String) :=
  if hs.any (fun p => p.1 = k) then
    hs.map (fun p => if p.1 = k then (k, v) else p)
  else hs ++ [(k, v)]

/-- Map lookup; `none` models a key that is absent from the Go map. -/
def hdrGet (hs : List (String × String)) (k : String) : Option String :=
  (hs.find? (fun p => p.1 = k)).map (fun p => p.2)

/-- Go map indexing `m[k]`, which yields the zero value "" when absent. -/
def hdrGetD (hs : List (String × String)) (k : String) : String :=
  (hdrGet hs k).getD ""

/-- The success envelope (SuccessResponse struct): `requestId` carries
`omitempty` in the source, so it is populated exactly when non-empty. -/
structure SuccessBody : Type where
  data : JVal
  requestId : String
  timestamp : String

/-- The error envelope (ErrorResponse struct).  `error` is `some` exactly
when the code executed `errorResponse.Error = err.Error()`, i.e. when a
non-nil cause was supplied; `requestId` and `path` carry `omitempty` and
are populated exactly when non-empty. -/
structure ErrorBody : Type where
  message : String
  error : Option String
  requestId : String
  timestamp : String
  path : String

/-- The response body before JSON serialization: the empty string, the
success envelope, the error envelope, or (for non-2xx `Custom` statuses
with data) the data marshalled directly. -/
inductive RespBody : Type
  | empty : RespBody
  | success : SuccessBody → RespBody
  | failure : ErrorBody → RespBody
  | direct : JVal → RespBody

/-- Whether the serialized body would contain a top-level `timestamp`
field: the envelopes always carry one (no omitempty on it); the empty
body has none; a directly marshalled value has one only if it is an
object with such a key. -/
def RespBody.hasTimestampField : RespBody → Bool
  | .empty => false
  | .success _ => true
  | .failure _ => true
  | .direct (.jobj fields) => fields.any (fun p => p.1 = "timestamp")
  | .direct _ => false

/-- The Response struct of pkg/http/response.go. -/
structure Response : Type where
  statusCode : Int
  headers : List (String × String)
  body : RespBody

/-- The ResponseBuilder struct: accumulated request ID, path and custom
headers. -/
structure ResponseBuilder : Type where
  requestID : String
  path : String
  headers : List (String × String)

namespace ResponseBuilder

/-- NewResponseBuilder. -/
def new : ResponseBuilder := ⟨"", "", []⟩

def withRequestID (rb : ResponseBuilder) (requestID : String) : ResponseBuilder :=
  { rb with requestID := requestID }

def withPath (rb : ResponseBuilder) (path : String) : ResponseBuilder :=
  { rb with path := path }

def withHeader (rb : ResponseBuilder) (k v : String) : ResponseBuilder :=
  { rb with headers := hdrSet rb.headers k v }

def withCORS (rb : ResponseBuilder) : ResponseBuilder :=
  ((rb.withHeader "Access-Control-Allow-Origin" "*").withHeader
      "Access-Control-Allow-Headers"
      "Content-Type,X-Amz-Date,Authorization,X-Api-Key,X-Amz-Security-Token").withHeader
    "Access-Control-Allow-Methods" "OPTIONS,POST,GET,PUT,DELETE"

def withCacheControl (rb : ResponseBuilder) (maxAge : Int) : ResponseBuilder :=
  rb.withHeader "Cache-Control" ("max-age=" ++ toString maxAge)

/-- getDefaultHeaders: Content-Type, X-Request-ID when a request ID was
configured, then the accumulated custom headers. -/
def getDefaultHeaders (rb : ResponseBuilder) : List (String × String) :=
  let hs := hdrSet [] "Content-Type" "application/json"
  let hs := if rb.requestID ≠ "" then hdrSet hs "X-Request-ID" rb.requestID else hs
  rb.headers.foldl (fun acc p => hdrSet acc p.1 p.2) hs

/-- buildResponse: data nil gives an empty body (the `bodyBytes` path is
never entered); 2xx statuses wrap data in the success envelope; other
statuses marshal the data directly.  `now` is the `time.Now().UTC()`
read. -/
def buildResponse (rb : ResponseBuilder) (statusCode : Int) (data : GoIface)
    (now : DateTime) : Response :=
  { statusCode := statusCode
    headers := rb.getDefaultHeaders
    body :=
      match data with
      | none => .empty
      | some v =>
          if 200 ≤ statusCode ∧ statusCode < 300 then
            .success ⟨v, rb.requestID, formatRFC3339 now⟩
          else .direct v }

/-- buildErrorResponse: always the error envelope, with the cause's
`Error()` string attached exactly when the cause is non-nil. -/
def buildErrorResponse (rb : ResponseBuilder) (statusCode : Int)
    (message : String) (err : Option GoErr) (now : DateTime) : Response :=
  { statusCode := statusCode
    headers := rb.getDefaultHeaders
    body := .failure
      { message := message
        error := err.map GoErr.errString
        requestId := rb.requestID
        timestamp := formatRFC3339 now
        path := rb.path } }

def ok (rb : ResponseBuilder) (data : GoIface) (now : DateTime) : Response :=
  rb.buildResponse 200 data now

def created (rb : ResponseBuilder) (data : GoIface) (now : DateTime) : Response :=
  rb.buildResponse 201 data now

def noContent (rb : ResponseBuilder) (now : DateTime) : Response :=
  rb.buildResponse 204 none now

def badRequest (rb : ResponseBuilder) (message : String) (err : Option GoErr)
    (now : DateTime) : Response :=
  rb.buildErrorResponse 400 message err now

def unauthorized (rb : ResponseBuilder) (message : String) (now : DateTime) :
    Response :=
  rb.buildErrorResponse 401 message none now

def forbidden (rb : ResponseBuilder) (message : String) (now : DateTime) :
    Response :=
  rb.buildErrorResponse 403 message none now

def notFound (rb : ResponseBuilder) (message : String) (now : DateTime) :
    Response :=
  rb.buildErrorResponse 404 message none now

def methodNotAllowed (rb : ResponseBuilder) (message : String) (now : DateTime) :
    Response :=
  rb.buildErrorResponse 405 message none now

def conflict (rb : ResponseBuilder) (message : String) (err : Option GoErr)
    (now : DateTime) : Response :=
  rb.buildErrorResponse 409 message err now

def unprocessableEntity (rb : ResponseBuilder) (message : String)
    (err : Option GoErr) (now : DateTime) : Response :=
  rb.buildErrorResponse 422 message err now

def tooManyRequests (rb : ResponseBuilder) (message : String) (now : DateTime) :
    Response :=
  rb.buildErrorResponse 429 message none now

def internalServerError (rb : ResponseBuilder) (message : String)
    (err : Option GoErr) (now : DateTime) : Response :=
  rb.buildErrorResponse 500 message err now

def serviceUnavailable (rb : ResponseBuilder) (message : String)
    (now : DateTime) : Response :=
  rb.buildErrorResponse 503 message none now

def custom (rb : ResponseBuilder) (statusCode : Int) (data : GoIface)
    (now : DateTime) : Response :=
  rb.buildResponse statusCode data now

end ResponseBuilder

/-! ## encoding/json unmarshalling into `interface{}` (stdlib model)

A small recursive-descent parser over the character list, fuelled by
nesting depth.  Faithfulness notes: surrogate-pair combination after two
`\u` escapes is not performed (Go combines them); no theorem below looks
inside parsed strings or numbers. -/

/-- Leading JSON whitespace. -/
def skipWs : List Char → List Char
  | c :: cs =>
      if c = ' ' ∨ c = '\t' ∨ c = '\n' ∨ c = '\r' then skipWs cs else c :: cs
  | [] => []

/-- Value of a hexadecimal digit. -/
def hexVal (c : Char) : Option Nat :=
  if c.isDigit then some (c.toNat - '0'.toNat)
  else if 'a' ≤ c ∧ c ≤ 'f' then some (c.toNat - 'a'.toNat + 10)
  else if 'A' ≤ c ∧ c ≤ 'F' then some (c.toNat - 'A'.toNat + 10)
  else none

/-- Body of a JSON string literal after the opening quote: returns the
decoded characters and the remainder after the closing quote. -/
def parseStrChars : List Char → Option (List Char × List Char)
  | '"' :: rest => some ([], rest)
  | '\\' :: e :: rest =>
      match e with
      | '"' => (parseStrChars rest).map fun p => ('"' :: p.1, p.2)
      | '\\' => (parseStrChars rest).map fun p => ('\\' :: p.1, p.2)
      | '/' => (parseStrChars rest).map fun p => ('/' :: p.1, p.2)
      | 'b' => (parseStrChars rest).map fun p => ('\x08' :: p.1, p.2)
      | 'f' => (parseStrChars rest).map fun p => ('\x0C' :: p.1, p.2)
      | 'n' => (parseStrChars rest).map fun p => ('\n' :: p.1, p.2)
      | 'r' => (parseStrChars rest).map fun p => ('\x0D' :: p.1, p.2)
      | 't' => (parseStrChars rest).map fun p => ('\t' :: p.1, p.2)
      | 'u' =>
          match rest with
          | h1 :: h2 :: h3 :: h4 :: rest2 =>
              match hexVal h1, hexVal h2, hexVal h3, hexVal h4 with
              | some a, some b, some c, some d =>
                  (parseStrChars rest2).map fun p =>
                    (Char.ofNat (((a * 16 + b) * 16 + c) * 16 + d) :: p.1, p.2)
              | _, _, _, _ => none
          | _ => none
      | _ => none
  | c :: rest => (parseStrChars rest).map fun p => (c :: p.1, p.2)
  | [] => none

/-- One or more decimal digits. -/
def parseDigits : List Char → Option (List Char × List Char)
  | c :: cs =>
      if c.isDigit then
        match parseDigits cs with
        | some (ds, rest) => some (c :: ds, rest)
        | none => some ([c], cs)
      else none
  | [] => none

/-- The JSON number grammar `-? int frac? exp?`; returns the raw literal
text. -/
def parseNumChars (cs : List Char) : Option (List Char × List Char) :=
  let (neg, cs1) : List Char × List Char :=
    match cs with
    | '-' :: rest => (['-'], rest)
    | _ => ([], cs)
  match cs1 with
  | '0' :: rest => some (neg ++ ['0'], rest)
  | c :: _ =>
      if c.isDigit then
        (parseDigits cs1).map fun p => (neg ++ p.1, p.2)
      else none
  | [] => none

/-- Optional fraction part. -/
def parseFrac (cs : List Char) : Option (List Char × List Char) :=
  match cs with
  | '.' :: rest => (parseDigits rest).map fun p => ('.' :: p.1, p.2)
  | _ => some ([], cs)

/-- Optional exponent part. -/
def parseExp (cs : List Char) : Option (List Char × List Char) :=
  match cs with
  | c :: rest =>
      if c = 'e' ∨ c = 'E' then
        match rest with
        | s :: rest2 =>
            if s = '+' ∨ s = '-' then
              (parseDigits rest2).map fun p => (c :: s :: p.1, p.2)
            else (parseDigits rest).map fun p => (c :: p.1, p.2)
        | [] => none
      else some ([], cs)
  | [] => some ([], cs)

/-- A whole number literal. -/
def parseNumber (cs : List Char) : Option (String × List Char) := do
  let (i, r1) ← parseNumChars cs
  let (f, r2) ← parseFrac r1
  let (e, r3) ← parseExp r2
  pure (⟨i ++ f ++ e⟩, r3)

mutual

/-- One JSON value, leading whitespace allowed. -/
def parseVal : Nat → List Char → Option (JVal × List Char)
  | 0, _ => none
  | fuel + 1, cs =>
      match skipWs cs with
      | 'n' :: 'u' :: 'l' :: 'l' :: rest => some (.jnull, rest)
      | 't' :: 'r' :: 'u' :: 'e' :: rest => some (.jbool true, rest)
      | 'f' :: 'a' :: 'l' :: 's' :: 'e' :: rest => some (.jbool false, rest)
      | '"' :: rest => (parseStrChars rest).map fun p => (.jstr ⟨p.1⟩, p.2)
      | '[' :: rest =>
          match skipWs rest with
          | ']' :: rest2 => some (.jarr [], rest2)
          | cs2 => (parseElems fuel cs2).map fun p => (.jarr p.1, p.2)
      | '\x7b' :: rest =>
          match skipWs rest with
          | '\x7d' :: rest2 => some (.jobj [], rest2)
          | cs2 => (parseMembers fuel cs2).map fun p => (.jobj p.1, p.2)
      | cs2 => (parseNumber cs2).map fun p => (.jnum p.1, p.2)

/-- Comma-separated array elements up to the closing bracket. -/
def parseElems : Nat → List Char → Option (List JVal × List Char)
  | 0, _ => none
  | fuel + 1, cs => do
      let (v, r) ← parseVal fuel cs
      match skipWs r with
      | ',' :: r2 => (parseElems fuel r2).map fun p => (v :: p.1, p.2)
      | ']' :: r2 => some ([v], r2)
      | _ => none

/-- Comma-separated object members up to the closing brace. -/
def parseMembers : Nat → List Char → Option (List (String × JVal) × List Char)
  | 0, _ => none
  | fuel + 1, cs => do
      let (k, r1) ← match skipWs cs with
        | '"' :: rest => (parseStrChars rest).map fun p => ((⟨p.1⟩ : String), p.2)
        | _ => none
      let r2 ← match skipWs r1 with
        | ':' :: r2 => some r2
        | _ => none
      let (v, r3) ← parseVal fuel r2
      match skipWs r3 with
      | ',' :: r4 => (parseMembers fuel r4).map fun p => ((k, v) :: p.1, p.2)
      | '\x7d' :: r4 => some ([(k, v)], r4)
      | _ => none

end

/-- `json.Unmarshal(data, &v)` for `v interface{}`: the whole input must
be one JSON value followed only by whitespace; `none` is a returned parse
error. -/
def jsonUnmarshal (s : String) : Option JVal :=
  match parseVal (s.data.length + 1) s.data with
  | some (v, rest) => if skipWs rest = [] then some v else none
  | none => none

/-- What lands in the `interface{}` target: JSON `null` leaves the nil
interface. -/
def ifaceOfJVal : JVal → GoIface
  | .jnull => none
  | v => some v

/-! ## Request pipeline (pkg/lambda, second file of errors.go) -/

/-- Keys stored on the ambient context by this package. -/
inductive CtxKey : Type
  | parsedBody : CtxKey
  | requestID : CtxKey
  | timestampKey : CtxKey
  deriving DecidableEq

/-- The per-invocation `context.Context`: the Lambda request ID (from
`lambdacontext.FromContext`; `none` models an absent Lambda context) and
the `context.WithValue` chain, most recent first. -/
structure Ctx : Type where
  awsRequestID : Option String
  values : List (CtxKey × GoIface)

/-- `context.WithValue`: a nil value may be stored like any other. -/
def Ctx.withValue (c : Ctx) (k : CtxKey) (v : GoIface) : Ctx :=
  { c with values := (k, v) :: c.values }

/-- `ctx.Value(k)`: the most recently stored value, nil when absent —
storing nil and not storing at all are indistinguishable to callers. -/
def Ctx.value (c : Ctx) (k : CtxKey) : GoIface :=
  match c.values.find? (fun p => p.1 = k) with
  | some p => p.2
  | none => none

/-- events.APIGatewayProxyRequest, restricted to the fields the pipeline
reads. -/
structure Request : Type where
  httpMethod : String
  path : String
  headers : List (String × String)
  body : String

/-- events.APIGatewayV2HTTPRequest, restricted likewise: `method` stands
for RequestContext.HTTP.Method. -/
structure RequestV2 : Type where
  method : String
  rawPath : String
  headers : List (String × String)
  body : String

/-- Outcome of running a handler: its `(interface{}, error)` return plus
the wall-clock duration of the run, which is what the timeout
middleware's race observes.  Middleware-internal time is idealized as
zero, so a middleware that short-circuits reports duration 0 and the
pass-through middlewares report the inner handler's duration. -/
structure HandlerOut : Type where
  durationNs : Int
  data : GoIface
  err : Option GoErr

/-- HandlerFunc. -/
abbrev HandlerF : Type := Ctx → Request → HandlerOut

/-- HandlerFuncV2. -/
abbrev HandlerFV2 : Type := Ctx → RequestV2 → HandlerOut

/-- MiddlewareFunc / MiddlewareFuncV2 (the shape is shared). -/
abbrev Mw : Type := HandlerF → HandlerF

abbrev MwV2 : Type := HandlerFV2 → HandlerFV2

/-- The middleware-application loop of Wrap/WrapV2, index for index:
`wrapped := handlerFunc; for i := len-1; i >= 0; i-- { wrapped =
middlewares[i](wrapped) }`.  `wrapLoop ms n w` still has indices
`n-1 … 0` to apply. -/
def wrapLoop {α : Type} (ms : List (α → α)) : Nat → α → α
  | 0, w => w
  | n + 1, w => wrapLoop ms n ((ms.getD n id) w)

/-- The loop run to completion, as both Wrap and WrapV2 do before
returning their closure. -/
def applyMiddlewares {α : Type} (ms : List (α → α)) (h : α) : α :=
  wrapLoop ms ms.length h

/-- ValidationMiddleware: method allow-list, then Content-Type for
POST/PUT/PATCH with a body — the exact key "Content-Type" first, then
the exact lowercase key "content-type". -/
def validationMiddleware : Mw := fun next ctx request =>
  if ¬ (request.httpMethod = "GET" ∨ request.httpMethod = "POST"
      ∨ request.httpMethod = "PUT" ∨ request.httpMethod = "DELETE"
      ∨ request.httpMethod = "PATCH" ∨ request.httpMethod = "OPTIONS") then
    { durationNs := 0, data := none
      err := some (.validation
        ("HTTP method " ++ request.httpMethod ++ " is not allowed")
        "httpMethod" (some (.jstr request.httpMethod)) none) }
  else if (request.httpMethod = "POST" ∨ request.httpMethod = "PUT"
      ∨ request.httpMethod = "PATCH") ∧ request.body ≠ "" then
    let ct0 := hdrGetD request.headers "Content-Type"
    let contentType := if ct0 = "" then hdrGetD request.headers "content-type" else ct0
    if contentType ≠ "application/json" then
      { durationNs := 0, data := none
        err := some (.validation
          "Content-Type must be application/json for requests with body"
          "content-type" (some (.jstr contentType)) none) }
    else next ctx request
  else next ctx request

/-- ValidationMiddlewareV2: the same checks against
RequestContext.HTTP.Method (duplicated in the source as well). -/
def validationMiddlewareV2 : MwV2 := fun next ctx request =>
  if ¬ (request.method = "GET" ∨ request.method = "POST"
      ∨ request.method = "PUT" ∨ request.method = "DELETE"
      ∨ request.method = "PATCH" ∨ request.method = "OPTIONS") then
    { durationNs := 0, data := none
      err := some (.validation
        ("HTTP method " ++ request.method ++ " is not allowed")
        "httpMethod" (some (.jstr request.method)) none) }
  else if (request.method = "POST" ∨ request.method = "PUT"
      ∨ request.method = "PATCH") ∧ request.body ≠ "" then
    let ct0 := hdrGetD request.headers "Content-Type"
    let contentType := if ct0 = "" then hdrGetD request.headers "content-type" else ct0
    if contentType ≠ "application/json" then
      { durationNs := 0, data := none
        err := some (.validation
          "Content-Type must be application/json for requests with body"
          "content-type" (some (.jstr contentType)) none) }
    else next ctx request
  else next ctx request

/-- JSONParsingMiddleware: a non-empty body is unmarshalled; failure is a
ValidationError on field `body` wrapping the parse error (whose message
the json package produces and this model keeps opaque); success stores
the parsed value on the context before delegating. -/
def jsonParsingMiddleware : Mw := fun next ctx request =>
  if request.body ≠ "" then
    match jsonUnmarshal request.body with
    | none =>
        { durationNs := 0, data := none
          err := some (.validation "Invalid JSON in request body" "body"
            none (some (.untyped "json: syntax error"))) }
    | some parsedBody =>
        next (ctx.withValue .parsedBody (ifaceOfJVal parsedBody)) request
  else next ctx request

/-- GetParsedBody: `body := ctx.Value(contextKeyParsedBody); return body,
body != nil`. -/
def getParsedBody (ctx : Ctx) : GoIface × Bool :=
  (ctx.value .parsedBody, (ctx.value .parsedBody).isSome)

/-- TimeoutMiddleware: the handler goroutine races
`context.WithTimeout(ctx, h.config.ResponseTimeout)`.  The race is
resolved by duration: a handler that takes longer than the response
timeout loses to the deadline and the caller gets a TimeoutError carrying
the configured duration at the moment the deadline fires; otherwise the
handler's own result comes back.  (At exact equality the Go `select` is
nondeterministic; this model lets the handler win there, and no theorem
relies on that boundary case.) -/
def timeoutMiddleware (cfg : Config) : Mw := fun next ctx request =>
  let result := next ctx request
  if result.durationNs > cfg.responseTimeout then
    { durationNs := cfg.responseTimeout, data := none
      err := some (.timeout
        ("Request timeout after " ++ durString cfg.responseTimeout)
        cfg.responseTimeout) }
  else result

/-- The v2 twin with identical logic. -/
def timeoutMiddlewareV2 (cfg : Config) : MwV2 := fun next ctx request =>
  let result := next ctx request
  if result.durationNs > cfg.responseTimeout then
    { durationNs := cfg.responseTimeout, data := none
      err := some (.timeout
        ("Request timeout after " ++ durString cfg.responseTimeout)
        cfg.responseTimeout) }
  else result

/-- The error-classification switch shared by Wrap and WrapV2
(`switch e := err.(type)`): note it has no TimeoutError case, so a
TimeoutError falls to the default InternalServerError branch. -/
def errorSwitch (rb : ResponseBuilder) (e : GoErr) (now : DateTime) : Response :=
  match e with
  | .validation message _ _ cause => rb.badRequest message cause now
  | .notFound message _ _ => rb.notFound message now
  | .conflict message _ cause => rb.conflict message cause now
  | .unauthorized message _ => rb.unauthorized message now
  | .forbidden message _ _ => rb.forbidden message now
  | e => rb.internalServerError "Internal server error" (some e) now

/-- Wrap: middlewares applied in reverse order around the handler, then
the closure that extracts the request ID, builds the response builder
(request ID, path, CORS, cache-control), runs the wrapped handler and
renders its outcome — both branches return a nil invocation error.
Tracing and logging calls inside the closure do not affect the returned
pair and are elided. -/
def wrap (cfg : Config) (handlerFunc : HandlerF) (middlewares : List Mw) :
    Ctx → Request → DateTime → Response × Option GoErr :=
  let wrapped := applyMiddlewares middlewares handlerFunc
  fun ctx request now =>
    let requestID := ctx.awsRequestID.getD ""
    let responseBuilder :=
      (((ResponseBuilder.new.withRequestID requestID).withPath
        request.path).withCORS).withCacheControl cfg.cacheMaxAge
    let result := wrapped ctx request
    match result.err with
    | some e => (errorSwitch responseBuilder e now, none)
    | none => (responseBuilder.ok result.data now, none)

/-- events.APIGatewayV2HTTPResponse, as WrapV2 assembles it from the
Response fields. -/
structure ResponseV2 : Type where
  statusCode : Int
  headers : List (String × String)
  body : RespBody

/-- WrapV2: identical machine over the v2 event shape, converting the
Response into the v2 envelope field by field. -/
def wrapV2 (cfg : Config) (handlerFunc : HandlerFV2)
    (middlewares : List MwV2) :
    Ctx → RequestV2 → DateTime → ResponseV2 × Option GoErr :=
  let wrapped := applyMiddlewares middlewares handlerFunc
  fun ctx request now =>
    let requestID := ctx.awsRequestID.getD ""
    let responseBuilder :=
      (((ResponseBuilder.new.withRequestID requestID).withPath
        request.rawPath).withCORS).withCacheControl cfg.cacheMaxAge
    let result := wrapped ctx request
    match result.err with
    | some e =>
        let response := errorSwitch responseBuilder e now
        (⟨response.statusCode, response.headers, response.body⟩, none)
    | none =>
        let response := responseBuilder.ok result.data now
        (⟨response.statusCode, response.headers, response.body⟩, none)

/-! ## Tracer timing helper (pkg/observability) -/

/-- Result of running a Go call that may panic. -/
inductive GoExec (α : Type) : Type
  | ok : α → GoExec α
  | panicked : GoExec α

/-- WithTimer from the tracer source: it opens a subsegment, defers the
close, and immediately calls `err := fn(ctx)` — there is no nil check on
`fn`, and in Go calling a nil function value panics.  The subsegment and
annotation bookkeeping does not affect the returned value and is elided;
`enabled` is carried to mirror the receiver but is never read on this
path. -/
def withTimer (enabled : Bool) (ctx : Ctx) (name : String)
    (fn : Option (Ctx → Option GoErr)) : GoExec (Option GoErr) :=
  match fn with
  | none => .panicked
  | some f => .ok (f ctx)

/-! ## Spec-side definitions used to compare claims against the code -/

/-- Written from the claim's words, for comparison with the code: the
Content-Type lookup C5 describes — the exact key "Content-Type" first,
then a case-insensitive search over the header keys as a fallback. -/
def specContentTypeCI (headers : List (String × String)) : String :=
  let exact := hdrGetD headers "Content-Type"
  if exact = "" then
    match headers.find? (fun p => p.1.data.map Char.toLower = "content-type".data) with
    | some p => p.2
    | none => ""
  else exact

/-- The lookup the code performs: the exact key "Content-Type", then the
exact lowercase key "content-type" (the two map reads of
ValidationMiddleware). -/
def requestContentType (headers : List (String × String)) : String :=
  let ct0 := hdrGetD headers "Content-Type"
  if ct0 = "" then hdrGetD headers "content-type" else ct0

/-- The §4.1 validation rules, one constructor per check of
`Config.validate`. -/
inductive ConfigRule : Type
  | serviceNameRule
  | serviceVersionRule
  | requestTimeoutPosRule
  | responseTimeoutPosRule
  | responseLtRequestRule
  | cacheMaxAgeRule
  | logLevelRule
  | logFormatRule
  deriving DecidableEq

/-- Violation of one rule by a configuration (same conditions as the
source checks). -/
def ConfigRule.violatedBy (r : ConfigRule) (c : Config) : Prop :=
  match r with
  | .serviceNameRule => c.serviceName = ""
  | .serviceVersionRule => c.serviceVersion = ""
  | .requestTimeoutPosRule => c.requestTimeout ≤ 0
  | .responseTimeoutPosRule => c.responseTimeout ≤ 0
  | .responseLtRequestRule => c.responseTimeout ≥ c.requestTimeout
  | .cacheMaxAgeRule => c.cacheMaxAge < 0
  | .logLevelRule => ¬ (c.logLevel = "debug" ∨ c.logLevel = "info"
      ∨ c.logLevel = "warn" ∨ c.logLevel = "error" ∨ c.logLevel = "fatal"
      ∨ c.logLevel = "panic")
  | .logFormatRule => ¬ (c.logFormat = "json" ∨ c.logFormat = "console")

instance (r : ConfigRule) (c : Config) : Decidable (r.violatedBy c) := by
  cases r <;> simp [ConfigRule.violatedBy] <;> infer_instance

/-- The keyword of each rule as the claim names them. -/
def ConfigRule.keyword : ConfigRule → String
  | .serviceNameRule => "service name"
  | .serviceVersionRule => "service version"
  | .requestTimeoutPosRule => "request timeout must be positive"
  | .responseTimeoutPosRule => "response timeout must be positive"
  | .responseLtRequestRule => "response timeout must be less than request timeout"
  | .cacheMaxAgeRule => "cache max age"
  | .logLevelRule => "log level"
  | .logFormatRule => "log format"

/-! ## Theorems -/

/-- Containment in a string extends to containment in any right-extension. -/
theorem strContains_append_right (s t pat : String) (h : strContains s pat) :
    strContains (s ++ t) pat := by
  obtain ⟨a, b, hab⟩ := h
  exact ⟨a, b ++ t.data, by rw [String.data_append, ← hab]; simp⟩

theorem isDigit_digitChar_mod (d : Nat) :
    (Nat.digitChar (d % 10)).isDigit = true := by
  have h : d % 10 < 10 := Nat.mod_lt _ (by norm_num)
  interval_cases hd : d % 10 <;> decide

/-- Rendering any instant yields a string the recognizer accepts. -/
theorem isRFC3339UTC_formatRFC3339 (t : DateTime) :
    isRFC3339UTC (formatRFC3339 t) = true := by
  simp [isRFC3339UTC, formatRFC3339, padDigits, List.range_succ,
    isDigit_digitChar_mod]

/-- C1: GetStatusCode is total over error-or-nil and returns exactly the
§4.5 table: ValidationError 400, NotFoundError 404, ConflictError 409,
UnauthorizedError 401, ForbiddenError 403, TimeoutError 408,
InternalError 500, BusinessLogicError 500 by the default mapping,
ExternalServiceError its own statusCode field; nil maps to 200 and any
other untyped error to 500. -/
theorem getStatusCode_table :
    GetStatusCode none = 200 ∧
    (∀ m f v c, GetStatusCode (some (.validation m f v c)) = 400) ∧
    (∀ m r i, GetStatusCode (some (.notFound m r i)) = 404) ∧
    (∀ m r c, GetStatusCode (some (.conflict m r c)) = 409) ∧
    (∀ m r, GetStatusCode (some (.unauthorized m r)) = 401) ∧
    (∀ m r o, GetStatusCode (some (.forbidden m r o)) = 403) ∧
    (∀ m t, GetStatusCode (some (.timeout m t)) = 408) ∧
    (∀ m o c, GetStatusCode (some (.internal m o c)) = 500) ∧
    (∀ m c d, GetStatusCode (some (.businessLogic m c d)) = 500) ∧
    (∀ m s sc r c, GetStatusCode (some (.externalService m s sc r c)) = sc) ∧
    (∀ m, GetStatusCode (some (.untyped m)) = 500) := by
  refine ⟨rfl, ?_, ?_, ?_, ?_, ?_, ?_, ?_, ?_, ?_, ?_⟩ <;> intros <;> rfl

/-- Loop-unrolling lemma: running the reverse-index loop for the first
`n` indices equals a right fold over the length-`n` prefix. -/
theorem wrapLoop_eq_foldr {α : Type} (ms : List (α → α)) (n : Nat)
    (hn : n ≤ ms.length) (h : α) :
    wrapLoop ms n h = (ms.take n).foldr (fun m acc => m acc) h := by
  induction n generalizing h with
  | zero => simp [wrapLoop]
  | succ k ih =>
      have hk : k < ms.length := hn
      have hget : ms[k]? = some (ms.get ⟨k, hk⟩) := List.getElem?_eq_getElem hk
      rw [wrapLoop, ih (le_of_lt hk), List.take_succ, List.foldr_append, hget]
      simp [List.getD, hget]

/-- The finished loop is the right fold over the whole list. -/
theorem applyMiddlewares_eq_foldr {α : Type} (ms : List (α → α)) (h : α) :
    applyMiddlewares ms h = ms.foldr (fun m acc => m acc) h := by
  rw [applyMiddlewares, wrapLoop_eq_foldr ms ms.length le_rfl, List.take_length]

/-- C4: Wrap and WrapV2 iterate the middleware list in reverse, so the
composed handler is m1(m2(...(mn(h)))): the first-listed middleware ends
up outermost.  Stated for the v1 and v2 middleware types, whose
application loops are the same `applyMiddlewares`. -/
theorem middleware_composition_order :
    (∀ (ms : List Mw) (h : HandlerF),
        applyMiddlewares ms h = ms.foldr (fun m acc => m acc) h) ∧
    (∀ (m : Mw) (ms : List Mw) (h : HandlerF),
        applyMiddlewares (m :: ms) h = m (applyMiddlewares ms h)) ∧
    (∀ (ms : List MwV2) (h : HandlerFV2),
        applyMiddlewares ms h = ms.foldr (fun m acc => m acc) h) ∧
    (∀ (m : MwV2) (ms : List MwV2) (h : HandlerFV2),
        applyMiddlewares (m :: ms) h = m (applyMiddlewares ms h)) := by
  refine ⟨fun ms h => applyMiddlewares_eq_foldr ms h, fun m ms h => ?_,
    fun ms h => applyMiddlewares_eq_foldr ms h, fun m ms h => ?_⟩ <;>
    rw [applyMiddlewares_eq_foldr, applyMiddlewares_eq_foldr, List.foldr_cons]

/-- C8: the code of WithTimer calls the supplied operation with no nil
check, so a nil operation makes the call panic instead of returning the
"operation cannot be nil" error its own test expects. -/
theorem withTimer_nil_operation_panics :
    ∀ (enabled : Bool) (ctx : Ctx) (name : String),
      withTimer enabled ctx name none = GoExec.panicked := by
  intro enabled ctx name
  rfl

/-- C9: the terminal success calls with nil data — OK(nil), NoContent()
and Custom(status, nil) — produce an empty body, and buildResponse emits
the success envelope only when data is non-nil. -/
theorem nil_data_empty_body :
    ∀ (rb : ResponseBuilder) (now : DateTime),
      (rb.ok none now).body = RespBody.empty ∧
      (rb.noContent now).body = RespBody.empty ∧
      (∀ statusCode : Int, (rb.custom statusCode none now).body = RespBody.empty) ∧
      (∀ statusCode : Int,
        (rb.buildResponse statusCode none now).body = RespBody.empty) := by
  intro rb now
  exact ⟨rfl, rfl, fun _ => rfl, fun _ => rfl⟩

theorem jsonUnmarshal_null : jsonUnmarshal "null" = some JVal.jnull := rfl

/-- C10: JSONParsingMiddleware stores a parsed value only for a non-empty
body; GetParsedBody reports presence as (value, value != nil); a body
that is the JSON literal "null" parses successfully, stores the nil
interface, and GetParsedBody then returns (nil, false) — the same answer
as for a context that never stored a body. -/
theorem json_parsing_null_indistinguishable :
    (∀ (next : HandlerF) (ctx : Ctx) (request : Request),
      request.body = "" →
        jsonParsingMiddleware next ctx request = next ctx request) ∧
    (∀ ctx : Ctx, getParsedBody ctx =
        (ctx.value .parsedBody, (ctx.value .parsedBody).isSome)) ∧
    (∀ (next : HandlerF) (ctx : Ctx) (request : Request),
      request.body = "null" →
        jsonParsingMiddleware next ctx request =
            next (ctx.withValue .parsedBody none) request ∧
          getParsedBody (ctx.withValue .parsedBody none) = (none, false) ∧
          (ctx.value .parsedBody = none →
            getParsedBody (ctx.withValue .parsedBody none) = getParsedBody ctx)) := by
  refine ⟨fun next ctx request h => by simp [jsonParsingMiddleware, h],
    fun ctx => rfl, fun next ctx request h => ⟨?_, ?_, ?_⟩⟩
  · simp [jsonParsingMiddleware, h, jsonUnmarshal_null, ifaceOfJVal]
  · rfl
  · intro hnone
    simp [getParsedBody, Ctx.value, Ctx.withValue, List.find?] at hnone ⊢
    cases hfind : ctx.values.find? (fun p => p.1 = CtxKey.parsedBody) with
    | none => simp
    | some p => simp [hfind] at hnone ⊢; simp [hnone]

/-- Witness for the C10 theorem at concrete inputs. -/
theorem json_parsing_null_indistinguishable_witness :
    (jsonParsingMiddleware (fun _ _ => ⟨1, some (.jstr "ok"), none⟩) ⟨none, []⟩
        ⟨"POST", "/p", [], "null"⟩ =
      (fun (_ : Ctx) (_ : Request) => (⟨1, some (.jstr "ok"), none⟩ : HandlerOut))
        ((⟨none, []⟩ : Ctx).withValue .parsedBody none) ⟨"POST", "/p", [], "null"⟩) ∧
    getParsedBody ((⟨none, []⟩ : Ctx).withValue .parsedBody none) = (none, false) := by
  have h := json_parsing_null_indistinguishable.2.2
    (fun _ _ => ⟨1, some (.jstr "ok"), none⟩) ⟨none, []⟩ ⟨"POST", "/p", [], "null"⟩ rfl
  exact ⟨h.1, h.2.1⟩

/-- C5 counterexample: with the only Content-Type header spelled in upper
case, the case-insensitive fallback the claim describes finds
application/json, yet the middleware — whose fallback is the exact
lowercase key only — rejects the request with a ValidationError on
content-type instead of invoking the inner handler. -/
theorem validation_middleware_ci_counterexample :
    specContentTypeCI [("CONTENT-TYPE", "application/json")] =
        "application/json" ∧
    validationMiddleware (fun _ _ => ⟨5, some (.jstr "ok"), none⟩) ⟨none, []⟩
        ⟨"POST", "/data", [("CONTENT-TYPE", "application/json")], "x"⟩ =
      { durationNs := 0, data := none
        err := some (.validation
          "Content-Type must be application/json for requests with body"
          "content-type" (some (.jstr "")) none) } := by
  constructor
  · rfl
  · rfl

/-- C5 (amended): methods outside the allow-list are rejected with a
ValidationError on httpMethod, independent of the inner handler; for
POST/PUT/PATCH with a non-empty body, the Content-Type is read from the
exact key "Content-Type" and, when that is empty, from the exact
lowercase key "content-type" (not a general case-insensitive search);
anything other than application/json is rejected with a ValidationError
on content-type, independent of the inner handler. -/
theorem validation_middleware_behavior :
    ∀ (next : HandlerF) (ctx : Ctx) (request : Request),
      (¬ (request.httpMethod = "GET" ∨ request.httpMethod = "POST"
          ∨ request.httpMethod = "PUT" ∨ request.httpMethod = "DELETE"
          ∨ request.httpMethod = "PATCH" ∨ request.httpMethod = "OPTIONS") →
        validationMiddleware next ctx request =
          { durationNs := 0, data := none
            err := some (.validation
              ("HTTP method " ++ request.httpMethod ++ " is not allowed")
              "httpMethod" (some (.jstr request.httpMethod)) none) }) ∧
      ((request.httpMethod = "POST" ∨ request.httpMethod = "PUT"
          ∨ request.httpMethod = "PATCH") →
        request.body ≠ "" →
        requestContentType request.headers ≠ "application/json" →
        validationMiddleware next ctx request =
          { durationNs := 0, data := none
            err := some (.validation
              "Content-Type must be application/json for requests with body"
              "content-type"
              (some (.jstr (requestContentType request.headers))) none) }) := by
  intro next ctx request
  constructor
  · intro hm
    rw [validationMiddleware, if_pos hm]
  · intro hm hb hct
    have hallow : request.httpMethod = "GET" ∨ request.httpMethod = "POST"
        ∨ request.httpMethod = "PUT" ∨ request.httpMethod = "DELETE"
        ∨ request.httpMethod = "PATCH" ∨ request.httpMethod = "OPTIONS" := by
      rcases hm with h | h | h <;> simp [h]
    rw [validationMiddleware, if_neg (not_not_intro hallow), if_pos ⟨hm, hb⟩]
    simp only [requestContentType] at hct ⊢
    rw [if_pos hct]

/-- Witness for the C5 theorem at concrete inputs: a TRACE request is
rejected on httpMethod, and a POST with text/plain content type is
rejected on content-type. -/
theorem validation_middleware_behavior_witness :
    (validationMiddleware (fun _ _ => ⟨7, some (.jstr "ok"), none⟩) ⟨none, []⟩
        ⟨"TRACE", "/p", [], ""⟩ =
      { durationNs := 0, data := none
        err := some (.validation "HTTP method TRACE is not allowed"
          "httpMethod" (some (.jstr "TRACE")) none) }) ∧
    (validationMiddleware (fun _ _ => ⟨7, some (.jstr "ok"), none⟩) ⟨none, []⟩
        ⟨"POST", "/p", [("Content-Type", "text/plain")], "x"⟩ =
      { durationNs := 0, data := none
        err := some (.validation
          "Content-Type must be application/json for requests with body"
          "content-type" (some (.jstr "text/plain")) none) }) := by
  constructor
  · have h := (validation_middleware_behavior
      (fun _ _ => ⟨7, some (.jstr "ok"), none⟩) ⟨none, []⟩
      ⟨"TRACE", "/p", [], ""⟩).1 (by decide)
    simpa using h
  · have h := (validation_middleware_behavior
      (fun _ _ => ⟨7, some (.jstr "ok"), none⟩) ⟨none, []⟩
      ⟨"POST", "/p", [("Content-Type", "text/plain")], "x"⟩).2
      (by decide) (by decide) (by decide)
    simpa using h
theorem strContains_self (s : String) : strContains s s := ⟨[], [], by simp⟩

/-- Containment in a string extends to containment in any left-extension. -/
theorem strContains_append_left (s t pat : String) (h : strContains t pat) :
    strContains (s ++ t) pat := by
  obtain ⟨a, b, hab⟩ := h
  exact ⟨s.data ++ a, b, by rw [String.data_append, ← hab]; simp⟩

/-- C6 counterexample: a configuration with both timeouts positive and
equal (so the response timeout is not strictly smaller) but an empty
service name.  Load rejects it, but the error message is the
service-name one, not the timeout-ordering one the claim requires for
every such configuration. -/
theorem load_counterexample :
    (Config.mk "" "1.0.0" "development" "info" "json" 1 1 true true
        300).requestTimeout > 0 ∧
    (Config.mk "" "1.0.0" "development" "info" "json" 1 1 true true
        300).responseTimeout > 0 ∧
    ¬ ((Config.mk "" "1.0.0" "development" "info" "json" 1 1 true true
        300).responseTimeout <
      (Config.mk "" "1.0.0" "development" "info" "json" 1 1 true true
        300).requestTimeout) ∧
    Config.load (Config.mk "" "1.0.0" "development" "info" "json" 1 1 true true
        300) =
      .error "configuration validation failed: service name cannot be empty" ∧
    ¬ strContains "configuration validation failed: service name cannot be empty"
        "response timeout must be less than request timeout" := by
  refine ⟨by norm_num, by norm_num, by norm_num, rfl, by decide⟩

/-- C6 (amended): for every configuration violating exactly one of the
§4.1 rules, Load returns an error whose message contains that rule's
keyword; in particular, when the response timeout is not strictly below
the request timeout and every other rule is satisfied, the message
contains "response timeout must be less than request timeout". -/
theorem load_single_violation_keyword :
    ∀ (c : Config) (r : ConfigRule),
      r.violatedBy c →
      (∀ r2 : ConfigRule, r2 ≠ r → ¬ r2.violatedBy c) →
      ∃ msg, Config.load c = .error msg ∧ strContains msg r.keyword := by
  intro c r hv hothers
  have hsn := fun h => hothers .serviceNameRule h
  have hsv := fun h => hothers .serviceVersionRule h
  have hrt := fun h => hothers .requestTimeoutPosRule h
  have hrp := fun h => hothers .responseTimeoutPosRule h
  have hlt := fun h => hothers .responseLtRequestRule h
  have hca := fun h => hothers .cacheMaxAgeRule h
  have hll := fun h => hothers .logLevelRule h
  cases r with
  | serviceNameRule =>
      simp only [ConfigRule.violatedBy] at hv
      refine ⟨"configuration validation failed: " ++ "service name cannot be empty",
        by simp [Config.load, Config.validate, hv], ?_⟩
      exact strContains_append_left _ _ _ (by decide)
  | serviceVersionRule =>
      have h1 := hsn (by decide)
      simp only [ConfigRule.violatedBy] at hv h1
      refine ⟨"configuration validation failed: "
          ++ "service version cannot be empty",
        by simp [Config.load, Config.validate, hv, h1], ?_⟩
      exact strContains_append_left _ _ _ (by decide)
  | requestTimeoutPosRule =>
      have h1 := hsn (by decide)
      have h2 := hsv (by decide)
      simp only [ConfigRule.violatedBy] at hv h1 h2
      refine ⟨"configuration validation failed: "
          ++ "request timeout must be positive",
        by simp [Config.load, Config.validate, hv, h1, h2], ?_⟩
      exact strContains_append_left _ _ _ (by decide)
  | responseTimeoutPosRule =>
      have h1 := hsn (by decide)
      have h2 := hsv (by decide)
      have h3 := hrt (by decide)
      simp only [ConfigRule.violatedBy] at hv h1 h2 h3
      refine ⟨"configuration validation failed: "
          ++ "response timeout must be positive",
        by simp [Config.load, Config.validate, hv, h1, h2, h3], ?_⟩
      exact strContains_append_left _ _ _ (by decide)
  | responseLtRequestRule =>
      have h1 := hsn (by decide)
      have h2 := hsv (by decide)
      have h3 := hrt (by decide)
      have h4 := hrp (by decide)
      simp only [ConfigRule.violatedBy] at hv h1 h2 h3 h4
      refine ⟨"configuration validation failed: "
          ++ "response timeout must be less than request timeout",
        by simp [Config.load, Config.validate, hv, h1, h2, h3, h4], ?_⟩
      exact strContains_append_left _ _ _ (strContains_self _)
  | cacheMaxAgeRule =>
      have h1 := hsn (by decide)
      have h2 := hsv (by decide)
      have h3 := hrt (by decide)
      have h4 := hrp (by decide)
      have h5 := hlt (by decide)
      simp only [ConfigRule.violatedBy] at hv h1 h2 h3 h4 h5
      refine ⟨"configuration validation failed: "
          ++ "cache max age cannot be negative",
        by simp [Config.load, Config.validate, hv, h1, h2, h3, h4, h5], ?_⟩
      exact strContains_append_left _ _ _ (by decide)
  | logLevelRule =>
      have h1 := hsn (by decide)
      have h2 := hsv (by decide)
      have h3 := hrt (by decide)
      have h4 := hrp (by decide)
      have h5 := hlt (by decide)
      have h6 := hca (by decide)
      simp only [ConfigRule.violatedBy] at hv h1 h2 h3 h4 h5 h6
      refine ⟨"configuration validation failed: "
          ++ ("invalid log level: " ++ c.logLevel),
        by simp [Config.load, Config.validate, hv, h1, h2, h3, h4, h5, h6], ?_⟩
      exact strContains_append_left _ _ _
        (strContains_append_right _ _ _ (by decide))
  | logFormatRule =>
      have h1 := hsn (by decide)
      have h2 := hsv (by decide)
      have h3 := hrt (by decide)
      have h4 := hrp (by decide)
      have h5 := hlt (by decide)
      have h6 := hca (by decide)
      have h7 := hll (by decide)
      simp only [ConfigRule.violatedBy] at hv h1 h2 h3 h4 h5 h6 h7
      refine ⟨"configuration validation failed: "
          ++ ("invalid log format: " ++ c.logFormat),
        by simp [Config.load, Config.validate, hv, h1, h2, h3, h4, h5, h6,
          h7], ?_⟩
      exact strContains_append_left _ _ _
        (strContains_append_right _ _ _ (by decide))

/-- Witness for the C6 theorem: equal positive timeouts (response not
below request), every other rule satisfied; the message contains the
timeout-ordering keyword. -/
theorem load_single_violation_keyword_witness :
    ∃ msg,
      Config.load (Config.mk "svc" "1.0.0" "development" "info" "json" 1 1
          true true 300) = .error msg ∧
      strContains msg "response timeout must be less than request timeout" := by
  refine load_single_violation_keyword _ .responseLtRequestRule (by decide)
    (fun r2 hr2 => ?_)
  cases r2 <;> simp_all [ConfigRule.violatedBy]

/-- C7 counterexample: NoContent is a terminal response-builder call, and
its body is the empty string — no timestamp field at all — refuting
"every terminal response-builder call produces a body whose timestamp
field is present". -/
theorem noContent_no_timestamp_counterexample :
    ((ResponseBuilder.new.withRequestID "req-1").noContent
        ⟨2026, 1, 2, 3, 4, 5⟩).body = RespBody.empty ∧
    RespBody.empty.hasTimestampField = false := ⟨rfl, rfl⟩

/-- C7 (amended): every error terminal call produces the error envelope,
whose timestamp is present and is an RFC-3339 UTC rendering of the clock
read, whose error field is populated iff a non-nil cause was supplied,
whose path is exactly the configured path (so populated only when one
was configured), and whose requestId is exactly the configured request
ID (so populated whenever a non-empty one was configured); success
terminal calls emit the timestamped success envelope when the data is
non-nil and the status is 2xx. -/
theorem response_envelope_invariants :
    ∀ (rb : ResponseBuilder) (statusCode : Int) (message : String)
      (cause : Option GoErr) (now : DateTime) (v : JVal),
      ((rb.buildErrorResponse statusCode message cause now).body =
          RespBody.failure
            { message := message
              error := cause.map GoErr.errString
              requestId := rb.requestID
              timestamp := formatRFC3339 now
              path := rb.path } ∧
        isRFC3339UTC (formatRFC3339 now) = true ∧
        ((cause.map GoErr.errString).isSome ↔ cause.isSome)) ∧
      (200 ≤ statusCode → statusCode < 300 →
        (rb.buildResponse statusCode (some v) now).body =
          RespBody.success ⟨v, rb.requestID, formatRFC3339 now⟩) := by
  intro rb statusCode message cause now v
  refine ⟨⟨rfl, isRFC3339UTC_formatRFC3339 now, by cases cause <;> simp⟩,
    fun h1 h2 => ?_⟩
  simp [ResponseBuilder.buildResponse, h1, h2]

/-- Witness for the C7 theorem at concrete inputs. -/
theorem response_envelope_invariants_witness :
    (ResponseBuilder.new.buildResponse 200 (some (.jstr "d"))
        ⟨2026, 1, 2, 3, 4, 5⟩).body =
      RespBody.success ⟨.jstr "d", "", formatRFC3339 ⟨2026, 1, 2, 3, 4, 5⟩⟩ :=
  (response_envelope_invariants ResponseBuilder.new 200 "m" none
    ⟨2026, 1, 2, 3, 4, 5⟩ (.jstr "d")).2 (by norm_num) (by norm_num)

/-- The builder assembled at the top of Wrap/WrapV2: request ID, path,
CORS headers, cache-control. -/
theorem wrap_builder_contentType (requestID path : String) (maxAge : Int) :
    hdrGet ((((ResponseBuilder.new.withRequestID requestID).withPath
        path).withCORS).withCacheControl maxAge).getDefaultHeaders
      "Content-Type" = some "application/json" := by
  by_cases h : requestID = "" <;>
    simp [ResponseBuilder.new, ResponseBuilder.withRequestID,
      ResponseBuilder.withPath, ResponseBuilder.withCORS,
      ResponseBuilder.withCacheControl, ResponseBuilder.withHeader,
      ResponseBuilder.getDefaultHeaders, hdrSet, hdrGet, h, List.find?,
      List.any]

/-- The error switch always renders through buildErrorResponse with the
builder's default headers. -/
theorem errorSwitch_headers (rb : ResponseBuilder) (e : GoErr) (now : DateTime) :
    (errorSwitch rb e now).headers = rb.getDefaultHeaders := by
  cases e <;> rfl

/-- The statuses the error switch can produce. -/
theorem errorSwitch_statusCode_mem (rb : ResponseBuilder) (e : GoErr)
    (now : DateTime) :
    (errorSwitch rb e now).statusCode ∈ ([400, 401, 403, 404, 409, 500] : List Int) := by
  cases e <;> simp [errorSwitch, ResponseBuilder.badRequest,
    ResponseBuilder.notFound, ResponseBuilder.conflict,
    ResponseBuilder.unauthorized, ResponseBuilder.forbidden,
    ResponseBuilder.internalServerError, ResponseBuilder.buildErrorResponse]

/-- C3: for every request and every handler outcome — whatever data or
error the composed middleware stack returns — Wrap and WrapV2 return a
response with a nil invocation error, a Content-Type: application/json
header, and one of the statuses of the success path or of the error
switch: a handler error never propagates as a hard failure. -/
theorem wrap_total_response :
    (∀ (cfg : Config) (handlerFunc : HandlerF) (middlewares : List Mw)
      (ctx : Ctx) (request : Request) (now : DateTime),
      (wrap cfg handlerFunc middlewares ctx request now).2 = none ∧
      hdrGet (wrap cfg handlerFunc middlewares ctx request now).1.headers
          "Content-Type" = some "application/json" ∧
      (wrap cfg handlerFunc middlewares ctx request now).1.statusCode ∈
        ([200, 400, 401, 403, 404, 409, 500] : List Int)) ∧
    (∀ (cfg : Config) (handlerFunc : HandlerFV2) (middlewares : List MwV2)
      (ctx : Ctx) (request : RequestV2) (now : DateTime),
      (wrapV2 cfg handlerFunc middlewares ctx request now).2 = none ∧
      hdrGet (wrapV2 cfg handlerFunc middlewares ctx request now).1.headers
          "Content-Type" = some "application/json" ∧
      (wrapV2 cfg handlerFunc middlewares ctx request now).1.statusCode ∈
        ([200, 400, 401, 403, 404, 409, 500] : List Int)) := by
  constructor
  · intro cfg handlerFunc middlewares ctx request now
    cases hE : (applyMiddlewares middlewares handlerFunc ctx request).err with
    | none =>
        refine ⟨by simp [wrap, hE], ?_, ?_⟩
        · simpa [wrap, hE, ResponseBuilder.ok, ResponseBuilder.buildResponse]
            using wrap_builder_contentType (ctx.awsRequestID.getD "")
              request.path cfg.cacheMaxAge
        · simp [wrap, hE, ResponseBuilder.ok, ResponseBuilder.buildResponse]
    | some e =>
        refine ⟨by simp [wrap, hE], ?_, ?_⟩
        · simpa [wrap, hE, errorSwitch_headers]
            using wrap_builder_contentType (ctx.awsRequestID.getD "")
              request.path cfg.cacheMaxAge
        · have := errorSwitch_statusCode_mem
            (((ResponseBuilder.new.withRequestID
              (ctx.awsRequestID.getD "")).withPath
              request.path).withCORS.withCacheControl cfg.cacheMaxAge) e now
          simp only [wrap, hE] at *
          simp only [List.mem_cons, List.mem_singleton] at this ⊢
          tauto
  · intro cfg handlerFunc middlewares ctx request now
    cases hE : (applyMiddlewares middlewares handlerFunc ctx request).err with
    | none =>
        refine ⟨by simp [wrapV2, hE], ?_, ?_⟩
        · simpa [wrapV2, hE, ResponseBuilder.ok, ResponseBuilder.buildResponse]
            using wrap_builder_contentType (ctx.awsRequestID.getD "")
              request.rawPath cfg.cacheMaxAge
        · simp [wrapV2, hE, ResponseBuilder.ok, ResponseBuilder.buildResponse]
    | some e =>
        refine ⟨by simp [wrapV2, hE], ?_, ?_⟩
        · simpa [wrapV2, hE, errorSwitch_headers]
            using wrap_builder_contentType (ctx.awsRequestID.getD "")
              request.rawPath cfg.cacheMaxAge
        · have := errorSwitch_statusCode_mem
            (((ResponseBuilder.new.withRequestID
              (ctx.awsRequestID.getD "")).withPath
              request.rawPath).withCORS.withCacheControl cfg.cacheMaxAge) e now
          simp only [wrapV2, hE] at *
          simp only [List.mem_cons, List.mem_singleton] at this ⊢
          tauto

/-- C2: when the handler's execution time exceeds the configured response
timeout, TimeoutMiddleware does hand Wrap a TimeoutError carrying the
configured duration — but Wrap's error switch has no TimeoutError case,
so the pipeline's response is the default 500 "Internal server error",
not the 408 response whose message contains "timeout" that the claim
(and the repository's own TestErrorHandling) requires. -/
theorem wrap_timeout_maps_to_500 :
    ∀ (cfg : Config) (handlerFunc : HandlerF) (ctx : Ctx) (request : Request)
      (now : DateTime),
      (handlerFunc ctx request).durationNs > cfg.responseTimeout →
      (applyMiddlewares [timeoutMiddleware cfg] handlerFunc ctx request).err =
          some (.timeout
            ("Request timeout after " ++ durString cfg.responseTimeout)
            cfg.responseTimeout) ∧
      (wrap cfg handlerFunc [timeoutMiddleware cfg] ctx request
          now).1.statusCode = 500 ∧
      (wrap cfg handlerFunc [timeoutMiddleware cfg] ctx request now).1.body =
        RespBody.failure
          { message := "Internal server error"
            error := some (GoErr.errString (.timeout
              ("Request timeout after " ++ durString cfg.responseTimeout)
              cfg.responseTimeout))
            requestId := ctx.awsRequestID.getD ""
            timestamp := formatRFC3339 now
            path := request.path } ∧
      ¬ strContains "Internal server error" "timeout" := by
  intro cfg handlerFunc ctx request now hd
  have happ : applyMiddlewares [timeoutMiddleware cfg] handlerFunc =
      timeoutMiddleware cfg handlerFunc := rfl
  have hE : (applyMiddlewares [timeoutMiddleware cfg] handlerFunc ctx
      request).err = some (.timeout
        ("Request timeout after " ++ durString cfg.responseTimeout)
        cfg.responseTimeout) := by
    rw [happ]; simp [timeoutMiddleware, hd]
  refine ⟨hE, ?_, ?_, by decide⟩
  · simp [wrap, hE, errorSwitch, ResponseBuilder.internalServerError,
      ResponseBuilder.buildErrorResponse]
  · simp [wrap, hE, errorSwitch, ResponseBuilder.internalServerError,
      ResponseBuilder.buildErrorResponse, ResponseBuilder.new,
      ResponseBuilder.withRequestID, ResponseBuilder.withPath,
      ResponseBuilder.withCORS, ResponseBuilder.withCacheControl,
      ResponseBuilder.withHeader]

/-- Witness for the C2 theorem: response timeout 100ns, handler taking
200ns; the pipeline's status is 500. -/
theorem wrap_timeout_maps_to_500_witness :
    (wrap (Config.mk "svc" "1.0.0" "development" "info" "json" 200 100 true
          true 300)
        (fun _ _ => ⟨200, some (.jstr "late"), none⟩)
        [timeoutMiddleware (Config.mk "svc" "1.0.0" "development" "info"
          "json" 200 100 true true 300)]
        ⟨some "rid-1", []⟩ ⟨"GET", "/test", [], ""⟩
        ⟨2026, 1, 2, 3, 4, 5⟩).1.statusCode = 500 :=
  (wrap_timeout_maps_to_500
    (Config.mk "svc" "1.0.0" "development" "info" "json" 200 100 true true 300)
    (fun _ _ => ⟨200, some (.jstr "late"), none⟩)
    ⟨some "rid-1", []⟩ ⟨"GET", "/test", [], ""⟩ ⟨2026, 1, 2, 3, 4, 5⟩
    (by norm_num)).2.1
